import Mathlib

/-!
# Shallow embedding of the sw_fifo ring-buffer library (fifo.c / fifo.h)

The C library implements four variants of a fixed-capacity circular FIFO
buffer over a caller-supplied backing store: `fifo_uint8_*`, `fifo_uint16_*`,
`fifo_uint32_*` (element strides 1, 2 and 4 bytes) and `fifo_common_*`
(caller-chosen `entry_size`).

Modelling conventions, applied uniformly:

* The backing storage is a `List Nat` of **bytes** (each entry a byte value).
  C `memcpy`/`memset` become explicit `List` splicing (`memcpyL`, `memset0`).
* Pointers into the storage are modelled as offsets from `buffer`:
  for the `uint8` variant offsets are bytes (= elements); for `uint16`/`uint32`
  the pointers are typed (`uint16_t*`/`uint32_t*`), so `head`/`tail`/`limit`
  are **element** indices and byte positions are `2 * i` resp. `4 * i`;
  for the `common` variant all pointer arithmetic in the source goes through
  `(uint8_t *)` casts, so `head`/`tail`/`limit` are **byte** offsets.
  `limit` models the stored field `limit_ptr` (set by `init`, never changed).
* Possibly-NULL C pointers become `Option` arguments: a NULL descriptor is
  `none`, a NULL source/destination pointer is `none` / a `Bool` flag for the
  output pointer of `pop`.  The caller's source array is the `List Nat` of
  bytes it holds; advancing the C pointer is `List.drop`, and the bytes the
  bulk pop writes through `pop_buffer` are returned as a `List Nat` in order
  (in the source every pointer advance equals the number of bytes just
  copied, so the append model is exact).
* The struct fields `max_size`, `free_size`, `entry_size` and the count
  parameters are C `uint16_t`; element values are `uint8_t`/`uint16_t`/
  `uint32_t`.  They are modelled as `Nat` with an explicit `% 2^w` exactly
  where the C operation can wrap even for in-range (`< 2^16`) field values:
  `free_size += m` and `free_size++` (sums can reach `2^17`), the
  `m -= (limit - head)` of `fifo_common_pop_mul` (can underflow), and the
  truncation of element values on store.  The remaining subtractions are
  all protected by a preceding guard (`free_size != 0`, `m <= free_size`,
  split condition), under which the `Nat` subtraction coincides with the
  C result.  The check `m > max_size - free_size` of `fifo_uint8_pop_mul`
  is computed after C integer promotion to `int` (no 16-bit wrap); for
  `m >= 1` it agrees with the `Nat` subtraction form used here.
* Multi-byte element values are serialised little-endian (`bytes16`,
  `bytes32`); all comparisons in the development use the same encoding on
  both sides, so the byte order is never load-bearing.
* Return statuses are the C `int` codes (`0`, `-1` … `-4`) as `Int`.
-/

/-- `memcpy(dst + off, src, n)` on byte lists: write the first `n` bytes of
`src` into `dst` starting at offset `off`.  (If the write runs past the end
of `dst` the result grows, making an out-of-bounds write visible.) -/
def memcpyL (dst : List Nat) (off : Nat) (src : List Nat) (n : Nat) : List Nat :=
  dst.take off ++ src.take n ++ dst.drop (off + n)

/-- `memset(dst, 0, n)` at offset 0, as in every `memset` of the source. -/
def memset0 (dst : List Nat) (n : Nat) : List Nat :=
  List.replicate n 0 ++ dst.drop n

/-- Assignment to a `uint16_t` of a possibly-negative difference:
`(uint16_t)(a - b)`, i.e. reduction of `a - b` modulo `2^16`. -/
def u16_sub (a b : Nat) : Nat :=
  (((a : Int) - (b : Int)) % 65536).toNat

/-- Little-endian bytes of a `uint16_t` value. -/
def bytes16 (v : Nat) : List Nat :=
  [v % 256, v / 256 % 256]

/-- Little-endian bytes of a `uint32_t` value. -/
def bytes32 (v : Nat) : List Nat :=
  [v % 256, v / 256 % 256, v / 65536 % 256, v / 16777216 % 256]

/-- Read back a `uint16_t` stored at byte offset `off` (little-endian). -/
def read16 (B : List Nat) (off : Nat) : Nat :=
  B.getD off 0 + 256 * B.getD (off + 1) 0

/-- Read back a `uint32_t` stored at byte offset `off` (little-endian). -/
def read32 (B : List Nat) (off : Nat) : Nat :=
  B.getD off 0 + 256 * B.getD (off + 1) 0 + 65536 * B.getD (off + 2) 0 +
    16777216 * B.getD (off + 3) 0

/-- `fifo_uint8_TD` (fifo.h): descriptor of the byte FIFO.  `head`, `tail`
and `limit` are the pointer fields as byte offsets from `buffer`. -/
structure fifo_uint8_TD where
  buffer : List Nat
  head : Nat
  tail : Nat
  limit : Nat
  max_size : Nat
  free_size : Nat
deriving DecidableEq, Repr

/-- `fifo_uint8_clear` (fifo.c, lines 33-43). -/
def fifo_uint8_clear (fifo : Option fifo_uint8_TD) : Int × Option fifo_uint8_TD :=
  match fifo with
  | none => (-1, none)
  | some f =>
      (0, some { f with buffer := memset0 f.buffer f.max_size,
                        head := 0, tail := 0, free_size := f.max_size })

/-- Body of `fifo_uint8_pop` after the NULL checks (fifo.c, lines 60-68). -/
def fifo_uint8_pop_core (f : fifo_uint8_TD) : Int × fifo_uint8_TD × Option Nat :=
  if f.free_size = f.max_size then (-3, f, none)
  else
    let v := f.buffer.getD f.head 0
    let h1 := f.head + 1
    (0, { f with head := if h1 ≥ f.limit then 0 else h1,
                 free_size := (f.free_size + 1) % 65536 }, some v)

/-- `fifo_uint8_pop` (fifo.c, lines 56-69); `val_null` models `val == NULL`,
the third component is the value written through `val`. -/
def fifo_uint8_pop (fifo : Option fifo_uint8_TD) (val_null : Bool) :
    Int × Option fifo_uint8_TD × Option Nat :=
  match fifo with
  | none => (-1, none, none)
  | some f =>
      if val_null then (-2, some f, none)
      else
        let r := fifo_uint8_pop_core f
        (r.1, some r.2.1, r.2.2)

/-- Body of `fifo_uint8_pop_mul` after the NULL checks (fifo.c, lines 91-109).
The returned list is the byte sequence written through `pop_buffer`. -/
def fifo_uint8_pop_mul_core (f : fifo_uint8_TD) (m : Nat) :
    Int × fifo_uint8_TD × List Nat :=
  if m = 0 then (-3, f, [])
  else if m > f.max_size - f.free_size then (-4, f, [])
  else
    let free1 := (f.free_size + m) % 65536
    if f.head + m ≥ f.limit then
      let run := f.limit - f.head
      let out1 := (f.buffer.drop f.head).take run
      let m1 := m - run
      let out2 := (f.buffer.drop 0).take m1
      (0, { f with head := m1, free_size := free1 }, out1 ++ out2)
    else
      (0, { f with head := f.head + m, free_size := free1 },
        (f.buffer.drop f.head).take m)

/-- `fifo_uint8_pop_mul` (fifo.c, lines 85-110). -/
def fifo_uint8_pop_mul (fifo : Option fifo_uint8_TD) (pop_null : Bool) (m : Nat) :
    Int × Option fifo_uint8_TD × List Nat :=
  match fifo with
  | none => (-1, none, [])
  | some f =>
      if pop_null then (-2, some f, [])
      else
        let r := fifo_uint8_pop_mul_core f m
        (r.1, some r.2.1, r.2.2)

/-- Body of `fifo_uint8_push` after the NULL check (fifo.c, lines 125-133). -/
def fifo_uint8_push_core (f : fifo_uint8_TD) (val : Nat) : Int × fifo_uint8_TD :=
  if f.free_size = 0 then (-2, f)
  else
    let t1 := f.tail + 1
    (0, { f with buffer := memcpyL f.buffer f.tail [val % 256] 1,
                 tail := if t1 ≥ f.limit then 0 else t1,
                 free_size := f.free_size - 1 })

/-- `fifo_uint8_push` (fifo.c, lines 122-134). -/
def fifo_uint8_push (fifo : Option fifo_uint8_TD) (val : Nat) :
    Int × Option fifo_uint8_TD :=
  match fifo with
  | none => (-1, none)
  | some f =>
      let r := fifo_uint8_push_core f val
      (r.1, some r.2)

/-- Body of `fifo_uint8_push_mul` after the NULL checks (fifo.c, lines
156-174).  `S` is the byte contents of the caller's `push_buffer`. -/
def fifo_uint8_push_mul_core (f : fifo_uint8_TD) (S : List Nat) (m : Nat) :
    Int × fifo_uint8_TD :=
  if m = 0 then (-3, f)
  else if m > f.free_size then (-4, f)
  else
    let free1 := f.free_size - m
    if f.tail + m ≥ f.limit then
      let run := f.limit - f.tail
      let buf1 := memcpyL f.buffer f.tail S run
      let S1 := S.drop run
      let m1 := m - run
      (0, { f with buffer := memcpyL buf1 0 S1 m1, tail := m1,
                   free_size := free1 })
    else
      (0, { f with buffer := memcpyL f.buffer f.tail S m, tail := f.tail + m,
                   free_size := free1 })

/-- `fifo_uint8_push_mul` (fifo.c, lines 150-175). -/
def fifo_uint8_push_mul (fifo : Option fifo_uint8_TD)
    (push_buffer : Option (List Nat)) (m : Nat) : Int × Option fifo_uint8_TD :=
  match fifo with
  | none => (-1, none)
  | some f =>
      match push_buffer with
      | none => (-2, some f)
      | some S =>
          let r := fifo_uint8_push_mul_core f S m
          (r.1, some r.2)

/-- `fifo_uint8_init` (fifo.c, lines 190-206).  On failure the descriptor is
not initialised, hence `none`. -/
def fifo_uint8_init (fifo_null : Bool) (buffer : Option (List Nat))
    (size : Nat) (clear_flag : Bool) : Int × Option fifo_uint8_TD :=
  if fifo_null then (-1, none)
  else
    match buffer with
    | none => (-2, none)
    | some buf =>
        if size = 0 then (-3, none)
        else
          (0, some { buffer := if clear_flag then memset0 buf size else buf,
                     head := 0, tail := 0, limit := size,
                     max_size := size, free_size := size })

/-- `fifo_uint16_TD` (fifo.h): the pointer fields are `uint16_t*`, so `head`,
`tail` and `limit` are element indices; byte position of element `i` in
`buffer` is `2 * i`. -/
structure fifo_uint16_TD where
  buffer : List Nat
  head : Nat
  tail : Nat
  limit : Nat
  max_size : Nat
  free_size : Nat
deriving DecidableEq, Repr

/-- `fifo_uint16_clear` (fifo.c, lines 226-236): `memset(fifo->buffer, 0,
fifo->max_size)` zeroes `max_size` bytes of the `2 * max_size`-byte store. -/
def fifo_uint16_clear (fifo : Option fifo_uint16_TD) : Int × Option fifo_uint16_TD :=
  match fifo with
  | none => (-1, none)
  | some f =>
      (0, some { f with buffer := memset0 f.buffer f.max_size,
                        head := 0, tail := 0, free_size := f.max_size })

/-- Body of `fifo_uint16_pop` after the NULL checks (fifo.c, lines 253-261). -/
def fifo_uint16_pop_core (f : fifo_uint16_TD) : Int × fifo_uint16_TD × Option Nat :=
  if f.free_size = f.max_size then (-3, f, none)
  else
    let v := read16 f.buffer (2 * f.head)
    let h1 := f.head + 1
    (0, { f with head := if h1 ≥ f.limit then 0 else h1,
                 free_size := (f.free_size + 1) % 65536 }, some v)

/-- `fifo_uint16_pop` (fifo.c, lines 249-262). -/
def fifo_uint16_pop (fifo : Option fifo_uint16_TD) (val_null : Bool) :
    Int × Option fifo_uint16_TD × Option Nat :=
  match fifo with
  | none => (-1, none, none)
  | some f =>
      if val_null then (-2, some f, none)
      else
        let r := fifo_uint16_pop_core f
        (r.1, some r.2.1, r.2.2)

/-- Body of `fifo_uint16_pop_mul` after the NULL checks (fifo.c, lines
284-302).  Note the source checks `m > fifo->max_size` (line 285), adds `m`
to `free_size` (line 287), and in the split branch copies
`fifo->limit_ptr - fifo->head_ptr` (an element difference) **bytes** and
decrements `m` by that difference divided by 2 (lines 293-295). -/
def fifo_uint16_pop_mul_core (f : fifo_uint16_TD) (m : Nat) :
    Int × fifo_uint16_TD × List Nat :=
  if m = 0 then (-3, f, [])
  else if m > f.max_size then (-4, f, [])
  else
    let free1 := (f.free_size + m) % 65536
    if f.head + m ≥ f.limit then
      let run := f.limit - f.head
      let out1 := (f.buffer.drop (2 * f.head)).take run
      let m1 := m - run / 2
      let out2 := (f.buffer.drop 0).take (2 * m1)
      (0, { f with head := m1, free_size := free1 }, out1 ++ out2)
    else
      (0, { f with head := f.head + m, free_size := free1 },
        (f.buffer.drop (2 * f.head)).take (2 * m))

/-- `fifo_uint16_pop_mul` (fifo.c, lines 278-303). -/
def fifo_uint16_pop_mul (fifo : Option fifo_uint16_TD) (pop_null : Bool) (m : Nat) :
    Int × Option fifo_uint16_TD × List Nat :=
  match fifo with
  | none => (-1, none, [])
  | some f =>
      if pop_null then (-2, some f, [])
      else
        let r := fifo_uint16_pop_mul_core f m
        (r.1, some r.2.1, r.2.2)

/-- Body of `fifo_uint16_push` after the NULL check (fifo.c, lines 318-326). -/
def fifo_uint16_push_core (f : fifo_uint16_TD) (val : Nat) : Int × fifo_uint16_TD :=
  if f.free_size = 0 then (-2, f)
  else
    let t1 := f.tail + 1
    (0, { f with buffer := memcpyL f.buffer (2 * f.tail) (bytes16 val) 2,
                 tail := if t1 ≥ f.limit then 0 else t1,
                 free_size := f.free_size - 1 })

/-- `fifo_uint16_push` (fifo.c, lines 315-327). -/
def fifo_uint16_push (fifo : Option fifo_uint16_TD) (val : Nat) :
    Int × Option fifo_uint16_TD :=
  match fifo with
  | none => (-1, none)
  | some f =>
      let r := fifo_uint16_push_core f val
      (r.1, some r.2)

/-- Body of `fifo_uint16_push_mul` after the NULL checks (fifo.c, lines
349-367).  In the split branch the source copies
`fifo->limit_ptr - fifo->tail_ptr` (an element difference) **bytes**,
advances `push_buffer` by that difference divided by 2 elements, and
decrements `m` by the same (lines 358-360). -/
def fifo_uint16_push_mul_core (f : fifo_uint16_TD) (S : List Nat) (m : Nat) :
    Int × fifo_uint16_TD :=
  if m = 0 then (-3, f)
  else if m > f.free_size then (-4, f)
  else
    let free1 := f.free_size - m
    if f.tail + m ≥ f.limit then
      let run := f.limit - f.tail
      let buf1 := memcpyL f.buffer (2 * f.tail) S run
      let S1 := S.drop run
      let m1 := m - run / 2
      (0, { f with buffer := memcpyL buf1 0 S1 (2 * m1), tail := m1,
                   free_size := free1 })
    else
      (0, { f with buffer := memcpyL f.buffer (2 * f.tail) S (2 * m),
                   tail := f.tail + m, free_size := free1 })

/-- `fifo_uint16_push_mul` (fifo.c, lines 343-368). -/
def fifo_uint16_push_mul (fifo : Option fifo_uint16_TD)
    (push_buffer : Option (List Nat)) (m : Nat) : Int × Option fifo_uint16_TD :=
  match fifo with
  | none => (-1, none)
  | some f =>
      match push_buffer with
      | none => (-2, some f)
      | some S =>
          let r := fifo_uint16_push_mul_core f S m
          (r.1, some r.2)

/-- `fifo_uint16_init` (fifo.c, lines 383-399): `limit_ptr = buffer + size`
is `size` elements; `memset(buffer, 0, size)` zeroes `size` **bytes** of the
`2 * size`-byte store (line 396). -/
def fifo_uint16_init (fifo_null : Bool) (buffer : Option (List Nat))
    (size : Nat) (clear_flag : Bool) : Int × Option fifo_uint16_TD :=
  if fifo_null then (-1, none)
  else
    match buffer with
    | none => (-2, none)
    | some buf =>
        if size = 0 then (-3, none)
        else
          (0, some { buffer := if clear_flag then memset0 buf size else buf,
                     head := 0, tail := 0, limit := size,
                     max_size := size, free_size := size })

/-- `fifo_uint32_TD` (fifo.h): the pointer fields are `uint32_t*`, so `head`,
`tail` and `limit` are element indices; byte position of element `i` is
`4 * i`. -/
structure fifo_uint32_TD where
  buffer : List Nat
  head : Nat
  tail : Nat
  limit : Nat
  max_size : Nat
  free_size : Nat
deriving DecidableEq, Repr

/-- `fifo_uint32_clear` (fifo.c, lines 419-429): `memset` of `max_size`
bytes of the `4 * max_size`-byte store. -/
def fifo_uint32_clear (fifo : Option fifo_uint32_TD) : Int × Option fifo_uint32_TD :=
  match fifo with
  | none => (-1, none)
  | some f =>
      (0, some { f with buffer := memset0 f.buffer f.max_size,
                        head := 0, tail := 0, free_size := f.max_size })

/-- Body of `fifo_uint32_pop` after the NULL checks (fifo.c, lines 446-454). -/
def fifo_uint32_pop_core (f : fifo_uint32_TD) : Int × fifo_uint32_TD × Option Nat :=
  if f.free_size = f.max_size then (-3, f, none)
  else
    let v := read32 f.buffer (4 * f.head)
    let h1 := f.head + 1
    (0, { f with head := if h1 ≥ f.limit then 0 else h1,
                 free_size := (f.free_size + 1) % 65536 }, some v)

/-- `fifo_uint32_pop` (fifo.c, lines 442-455). -/
def fifo_uint32_pop (fifo : Option fifo_uint32_TD) (val_null : Bool) :
    Int × Option fifo_uint32_TD × Option Nat :=
  match fifo with
  | none => (-1, none, none)
  | some f =>
      if val_null then (-2, some f, none)
      else
        let r := fifo_uint32_pop_core f
        (r.1, some r.2.1, r.2.2)

/-- Body of `fifo_uint32_pop_mul` after the NULL checks (fifo.c, lines
477-495): the availability check is `m > fifo->max_size` (line 478); the
split branch copies an element difference as a **byte** count and divides
by 4 for the pointer/count adjustments (lines 486-488). -/
def fifo_uint32_pop_mul_core (f : fifo_uint32_TD) (m : Nat) :
    Int × fifo_uint32_TD × List Nat :=
  if m = 0 then (-3, f, [])
  else if m > f.max_size then (-4, f, [])
  else
    let free1 := (f.free_size + m) % 65536
    if f.head + m ≥ f.limit then
      let run := f.limit - f.head
      let out1 := (f.buffer.drop (4 * f.head)).take run
      let m1 := m - run / 4
      let out2 := (f.buffer.drop 0).take (4 * m1)
      (0, { f with head := m1, free_size := free1 }, out1 ++ out2)
    else
      (0, { f with head := f.head + m, free_size := free1 },
        (f.buffer.drop (4 * f.head)).take (4 * m))

/-- `fifo_uint32_pop_mul` (fifo.c, lines 471-496). -/
def fifo_uint32_pop_mul (fifo : Option fifo_uint32_TD) (pop_null : Bool) (m : Nat) :
    Int × Option fifo_uint32_TD × List Nat :=
  match fifo with
  | none => (-1, none, [])
  | some f =>
      if pop_null then (-2, some f, [])
      else
        let r := fifo_uint32_pop_mul_core f m
        (r.1, some r.2.1, r.2.2)

/-- Body of `fifo_uint32_push` after the NULL check (fifo.c, lines 511-519). -/
def fifo_uint32_push_core (f : fifo_uint32_TD) (val : Nat) : Int × fifo_uint32_TD :=
  if f.free_size = 0 then (-2, f)
  else
    let t1 := f.tail + 1
    (0, { f with buffer := memcpyL f.buffer (4 * f.tail) (bytes32 val) 4,
                 tail := if t1 ≥ f.limit then 0 else t1,
                 free_size := f.free_size - 1 })

/-- `fifo_uint32_push` (fifo.c, lines 508-520). -/
def fifo_uint32_push (fifo : Option fifo_uint32_TD) (val : Nat) :
    Int × Option fifo_uint32_TD :=
  match fifo with
  | none => (-1, none)
  | some f =>
      let r := fifo_uint32_push_core f val
      (r.1, some r.2)

/-- Body of `fifo_uint32_push_mul` after the NULL checks (fifo.c, lines
542-560): split branch as in the `uint16` variant with divisor 4
(lines 551-553). -/
def fifo_uint32_push_mul_core (f : fifo_uint32_TD) (S : List Nat) (m : Nat) :
    Int × fifo_uint32_TD :=
  if m = 0 then (-3, f)
  else if m > f.free_size then (-4, f)
  else
    let free1 := f.free_size - m
    if f.tail + m ≥ f.limit then
      let run := f.limit - f.tail
      let buf1 := memcpyL f.buffer (4 * f.tail) S run
      let S1 := S.drop run
      let m1 := m - run / 4
      (0, { f with buffer := memcpyL buf1 0 S1 (4 * m1), tail := m1,
                   free_size := free1 })
    else
      (0, { f with buffer := memcpyL f.buffer (4 * f.tail) S (4 * m),
                   tail := f.tail + m, free_size := free1 })

/-- `fifo_uint32_push_mul` (fifo.c, lines 536-561). -/
def fifo_uint32_push_mul (fifo : Option fifo_uint32_TD)
    (push_buffer : Option (List Nat)) (m : Nat) : Int × Option fifo_uint32_TD :=
  match fifo with
  | none => (-1, none)
  | some f =>
      match push_buffer with
      | none => (-2, some f)
      | some S =>
          let r := fifo_uint32_push_mul_core f S m
          (r.1, some r.2)

/-- `fifo_uint32_init` (fifo.c, lines 576-592): `limit_ptr = buffer + size`
elements; `memset(buffer, 0, size)` zeroes `size` **bytes** of the
`4 * size`-byte store (line 589). -/
def fifo_uint32_init (fifo_null : Bool) (buffer : Option (List Nat))
    (size : Nat) (clear_flag : Bool) : Int × Option fifo_uint32_TD :=
  if fifo_null then (-1, none)
  else
    match buffer with
    | none => (-2, none)
    | some buf =>
        if size = 0 then (-3, none)
        else
          (0, some { buffer := if clear_flag then memset0 buf size else buf,
                     head := 0, tail := 0, limit := size,
                     max_size := size, free_size := size })

/-- `fifo_common_TD` (fifo.h): `void*` pointer fields; all pointer
arithmetic in the source casts through `uint8_t*`, so `head`, `tail` and
`limit` are **byte** offsets from `buffer`. -/
structure fifo_common_TD where
  buffer : List Nat
  head : Nat
  tail : Nat
  limit : Nat
  entry_size : Nat
  max_size : Nat
  free_size : Nat
deriving DecidableEq, Repr

/-- `fifo_common_clear` (fifo.c, lines 612-622): `memset` of
`max_size * entry_size` bytes — this variant scales by the stride. -/
def fifo_common_clear (fifo : Option fifo_common_TD) : Int × Option fifo_common_TD :=
  match fifo with
  | none => (-1, none)
  | some f =>
      (0, some { f with buffer := memset0 f.buffer (f.max_size * f.entry_size),
                        head := 0, tail := 0, free_size := f.max_size })

/-- Body of `fifo_common_pop` after the NULL checks (fifo.c, lines 639-647).
The returned list is the `entry_size` bytes copied into `val_buffer`. -/
def fifo_common_pop_core (f : fifo_common_TD) : Int × fifo_common_TD × List Nat :=
  if f.free_size = f.max_size then (-3, f, [])
  else
    let out := (f.buffer.drop f.head).take f.entry_size
    let h1 := f.head + f.entry_size
    (0, { f with head := if h1 ≥ f.limit then 0 else h1,
                 free_size := (f.free_size + 1) % 65536 }, out)

/-- `fifo_common_pop` (fifo.c, lines 635-648). -/
def fifo_common_pop (fifo : Option fifo_common_TD) (val_null : Bool) :
    Int × Option fifo_common_TD × List Nat :=
  match fifo with
  | none => (-1, none, [])
  | some f =>
      if val_null then (-2, some f, [])
      else
        let r := fifo_common_pop_core f
        (r.1, some r.2.1, r.2.2)

/-- Body of `fifo_common_pop_mul` after the NULL checks (fifo.c, lines
670-688): the availability check is `m > fifo->max_size` (line 671); the
split branch copies `(limit - head) * entry_size` bytes where
`limit - head` is already a byte difference (line 679), and performs the
`uint16_t` assignment `m -= (limit - head)` with the unscaled byte
difference (line 681), which can wrap below zero. -/
def fifo_common_pop_mul_core (f : fifo_common_TD) (m : Nat) :
    Int × fifo_common_TD × List Nat :=
  if m = 0 then (-3, f, [])
  else if m > f.max_size then (-4, f, [])
  else
    let free1 := (f.free_size + m) % 65536
    if f.head + m * f.entry_size ≥ f.limit then
      let diff := f.limit - f.head
      let out1 := (f.buffer.drop f.head).take (diff * f.entry_size)
      let m1 := u16_sub m diff
      let out2 := (f.buffer.drop 0).take (m1 * f.entry_size)
      (0, { f with head := m1 * f.entry_size, free_size := free1 }, out1 ++ out2)
    else
      (0, { f with head := f.head + m * f.entry_size, free_size := free1 },
        (f.buffer.drop f.head).take (m * f.entry_size))

/-- `fifo_common_pop_mul` (fifo.c, lines 664-689). -/
def fifo_common_pop_mul (fifo : Option fifo_common_TD) (pop_null : Bool) (m : Nat) :
    Int × Option fifo_common_TD × List Nat :=
  match fifo with
  | none => (-1, none, [])
  | some f =>
      if pop_null then (-2, some f, [])
      else
        let r := fifo_common_pop_mul_core f m
        (r.1, some r.2.1, r.2.2)

/-- Body of `fifo_common_push` after the NULL checks (fifo.c, lines
706-714).  `S` is the byte contents of the caller's `val_buffer`. -/
def fifo_common_push_core (f : fifo_common_TD) (S : List Nat) : Int × fifo_common_TD :=
  if f.free_size = 0 then (-3, f)
  else
    let t1 := f.tail + f.entry_size
    (0, { f with buffer := memcpyL f.buffer f.tail S f.entry_size,
                 tail := if t1 ≥ f.limit then 0 else t1,
                 free_size := f.free_size - 1 })

/-- `fifo_common_push` (fifo.c, lines 702-715). -/
def fifo_common_push (fifo : Option fifo_common_TD) (val_buffer : Option (List Nat)) :
    Int × Option fifo_common_TD :=
  match fifo with
  | none => (-1, none)
  | some f =>
      match val_buffer with
      | none => (-2, some f)
      | some S =>
          let r := fifo_common_push_core f S
          (r.1, some r.2)

/-- Body of `fifo_common_push_mul` after the NULL checks (fifo.c, lines
737-755): the split branch copies `(limit - tail) * entry_size` bytes where
`limit - tail` is already a byte difference (line 746), advances the source
by the same, and decrements `m` by `(limit - tail) / entry_size` elements
(line 748). -/
def fifo_common_push_mul_core (f : fifo_common_TD) (S : List Nat) (m : Nat) :
    Int × fifo_common_TD :=
  if m = 0 then (-3, f)
  else if m > f.free_size then (-4, f)
  else
    let free1 := f.free_size - m
    if f.tail + m * f.entry_size ≥ f.limit then
      let diff := f.limit - f.tail
      let buf1 := memcpyL f.buffer f.tail S (diff * f.entry_size)
      let S1 := S.drop (diff * f.entry_size)
      let m1 := m - diff / f.entry_size
      (0, { f with buffer := memcpyL buf1 0 S1 (m1 * f.entry_size),
                   tail := m1 * f.entry_size, free_size := free1 })
    else
      (0, { f with buffer := memcpyL f.buffer f.tail S (m * f.entry_size),
                   tail := f.tail + m * f.entry_size, free_size := free1 })

/-- `fifo_common_push_mul` (fifo.c, lines 731-756). -/
def fifo_common_push_mul (fifo : Option fifo_common_TD)
    (push_buffer : Option (List Nat)) (m : Nat) : Int × Option fifo_common_TD :=
  match fifo with
  | none => (-1, none)
  | some f =>
      match push_buffer with
      | none => (-2, some f)
      | some S =>
          let r := fifo_common_push_mul_core f S m
          (r.1, some r.2)

/-- `fifo_common_init` (fifo.c, lines 773-791): also rejects
`entry_size == 0` with `-4`; `limit_ptr = buffer + entry_size * size`
bytes; `memset` of `size * entry_size` bytes (correctly scaled). -/
def fifo_common_init (fifo_null : Bool) (buffer : Option (List Nat))
    (size : Nat) (entry_size : Nat) (clear_flag : Bool) :
    Int × Option fifo_common_TD :=
  if fifo_null then (-1, none)
  else
    match buffer with
    | none => (-2, none)
    | some buf =>
        if size = 0 then (-3, none)
        else if entry_size = 0 then (-4, none)
        else
          (0, some { buffer := if clear_flag then memset0 buf (size * entry_size) else buf,
                     head := 0, tail := 0, limit := entry_size * size,
                     entry_size := entry_size, max_size := size, free_size := size })

/-!
## Sequencing helpers

Callers exercise the API by iterating single-element operations; these
helpers chain `push`/`pop` calls, collecting statuses and popped values.
-/

/-- Push the elements of `es` one by one with `fifo_uint8_push`; collect
the returned statuses and the final state. -/
def fifo_uint8_pushList (f : fifo_uint8_TD) (es : List Nat) :
    List Int × fifo_uint8_TD :=
  match es with
  | [] => ([], f)
  | e :: rest =>
      let r := fifo_uint8_push_core f e
      let r2 := fifo_uint8_pushList r.2 rest
      (r.1 :: r2.1, r2.2)

/-- Pop `k` elements one by one with `fifo_uint8_pop`; collect the returned
statuses, the successfully delivered values in order, and the final state. -/
def fifo_uint8_popN (f : fifo_uint8_TD) (k : Nat) :
    List Int × List Nat × fifo_uint8_TD :=
  match k with
  | 0 => ([], [], f)
  | Nat.succ k1 =>
      let r := fifo_uint8_pop_core f
      let r2 := fifo_uint8_popN r.2.1 k1
      (r.1 :: r2.1,
       (match r.2.2 with
        | some v => v :: r2.2.1
        | none => r2.2.1),
       r2.2.2)

/-- Push the elements of `es` one by one with `fifo_uint16_push`; collect
the returned statuses and the final state. -/
def fifo_uint16_pushList (f : fifo_uint16_TD) (es : List Nat) :
    List Int × fifo_uint16_TD :=
  match es with
  | [] => ([], f)
  | e :: rest =>
      let r := fifo_uint16_push_core f e
      let r2 := fifo_uint16_pushList r.2 rest
      (r.1 :: r2.1, r2.2)

/-!
## Claim theorems
-/

/-- C6: on a freshly initialized `uint8` buffer of capacity 4, pushes of
1, 2, 3, 4 all succeed, a fifth push returns `-2` (BufferFull) without
change, a single pop returns 1 leaving `free_size = 1`, pushing 5 succeeds
writing into slot 0 (wraparound), and a bulk pop of 4 returns `[2, 3, 4, 5]`
in order leaving the buffer empty (`free_size = max_size = 4`). -/
theorem fifo_uint8_concrete_scenario :
    (fifo_uint8_init false (some (List.replicate 4 0)) 4 true =
      (0, some ⟨[0, 0, 0, 0], 0, 0, 4, 4, 4⟩)) ∧
    (fifo_uint8_pushList ⟨[0, 0, 0, 0], 0, 0, 4, 4, 4⟩ [1, 2, 3, 4] =
      ([0, 0, 0, 0], ⟨[1, 2, 3, 4], 0, 0, 4, 4, 0⟩)) ∧
    (fifo_uint8_push (some ⟨[1, 2, 3, 4], 0, 0, 4, 4, 0⟩) 5 =
      (-2, some ⟨[1, 2, 3, 4], 0, 0, 4, 4, 0⟩)) ∧
    (fifo_uint8_pop (some ⟨[1, 2, 3, 4], 0, 0, 4, 4, 0⟩) false =
      (0, some ⟨[1, 2, 3, 4], 1, 0, 4, 4, 1⟩, some 1)) ∧
    (fifo_uint8_push (some ⟨[1, 2, 3, 4], 1, 0, 4, 4, 1⟩) 5 =
      (0, some ⟨[5, 2, 3, 4], 1, 1, 4, 4, 0⟩)) ∧
    (fifo_uint8_pop_mul (some ⟨[5, 2, 3, 4], 1, 1, 4, 4, 0⟩) false 4 =
      (0, some ⟨[5, 2, 3, 4], 1, 1, 4, 4, 4⟩, [2, 3, 4, 5])) := by
  decide

/-- C1 (code bug in `fifo_uint16_push_mul`): on a `uint16` buffer of
capacity 4 with `head = tail = 2` (reached from `init` by two pushes and two
pops), a bulk push of the three elements 1, 2, 3 straddles the storage end;
the split branch copies `limit_ptr - tail_ptr` (an element difference)
**bytes** and decrements `m` by half the run, so the resulting storage and
final tail differ from pushing 1, 2, 3 one at a time: bulk gives storage
bytes `[2,0,3,0,1,0,0,0]` with `tail = 2`, sequential pushes give
`[3,0,11,0,1,0,2,0]` with `tail = 1`. -/
theorem fifo_uint16_push_mul_split_diverges :
    (fifo_uint16_init false (some (List.replicate 8 0)) 4 false =
      (0, some ⟨List.replicate 8 0, 0, 0, 4, 4, 4⟩)) ∧
    (fifo_uint16_pushList ⟨List.replicate 8 0, 0, 0, 4, 4, 4⟩ [10, 11] =
      ([0, 0], ⟨[10, 0, 11, 0, 0, 0, 0, 0], 0, 2, 4, 4, 2⟩)) ∧
    (fifo_uint16_pop (some ⟨[10, 0, 11, 0, 0, 0, 0, 0], 0, 2, 4, 4, 2⟩) false =
      (0, some ⟨[10, 0, 11, 0, 0, 0, 0, 0], 1, 2, 4, 4, 3⟩, some 10)) ∧
    (fifo_uint16_pop (some ⟨[10, 0, 11, 0, 0, 0, 0, 0], 1, 2, 4, 4, 3⟩) false =
      (0, some ⟨[10, 0, 11, 0, 0, 0, 0, 0], 2, 2, 4, 4, 4⟩, some 11)) ∧
    (fifo_uint16_push_mul (some ⟨[10, 0, 11, 0, 0, 0, 0, 0], 2, 2, 4, 4, 4⟩)
        (some (bytes16 1 ++ bytes16 2 ++ bytes16 3)) 3 =
      (0, some ⟨[2, 0, 3, 0, 1, 0, 0, 0], 2, 2, 4, 4, 1⟩)) ∧
    (fifo_uint16_pushList ⟨[10, 0, 11, 0, 0, 0, 0, 0], 2, 2, 4, 4, 4⟩ [1, 2, 3] =
      ([0, 0, 0], ⟨[3, 0, 11, 0, 1, 0, 2, 0], 2, 1, 4, 4, 1⟩)) ∧
    (([2, 0, 3, 0, 1, 0, 0, 0] : List Nat) ≠ [3, 0, 11, 0, 1, 0, 2, 0]) ∧
    ((2 : Nat) ≠ 1) := by
  decide

/-- C2 (code bug in `fifo_uint16_pop_mul`): on a freshly initialized,
hence empty, `uint16` buffer of capacity 4 (`occupied = max_size -
free_size = 0`), a bulk pop of 2 elements returns success `0` instead of
the InsufficientData error `-4`, because the source checks
`m > fifo->max_size` rather than `m` against the occupied count. -/
theorem fifo_uint16_pop_mul_missing_available_check :
    (fifo_uint16_init false (some (List.replicate 8 0)) 4 true =
      (0, some ⟨List.replicate 8 0, 0, 0, 4, 4, 4⟩)) ∧
    (fifo_uint16_pop_mul (some ⟨List.replicate 8 0, 0, 0, 4, 4, 4⟩) false 2 =
      (0, some ⟨List.replicate 8 0, 2, 0, 4, 4, 6⟩, [0, 0, 0, 0])) ∧
    ((⟨List.replicate 8 0, 0, 0, 4, 4, 4⟩ : fifo_uint16_TD).max_size -
      (⟨List.replicate 8 0, 0, 0, 4, 4, 4⟩ : fifo_uint16_TD).free_size = 0) ∧
    ((2 : Nat) > 0) := by
  decide

/-- C3 (code bug, consequence of the `fifo_uint16_pop_mul` check): after
`init` with capacity 4 followed by a single bulk pop of 2 elements — an
accepted call — the state has `free_size = 6 > max_size = 4`, violating the
claimed invariant `free_size ≤ max_size`. -/
theorem fifo_uint16_free_size_exceeds_max_size :
    (fifo_uint16_init false (some (List.replicate 8 0)) 4 true =
      (0, some ⟨List.replicate 8 0, 0, 0, 4, 4, 4⟩)) ∧
    (fifo_uint16_pop_mul (some ⟨List.replicate 8 0, 0, 0, 4, 4, 4⟩) false 2 =
      (0, some ⟨List.replicate 8 0, 2, 0, 4, 4, 6⟩, [0, 0, 0, 0])) ∧
    ((⟨List.replicate 8 0, 2, 0, 4, 4, 6⟩ : fifo_uint16_TD).free_size >
      (⟨List.replicate 8 0, 2, 0, 4, 4, 6⟩ : fifo_uint16_TD).max_size) := by
  decide

/-- C8 (code bug in `fifo_uint16_clear`): on a `uint16` buffer of capacity
2 whose 4-byte backing store holds `[1, 1, 1, 1]`, `clear` succeeds and
resets `head`, `tail` and `free_size`, but `memset(fifo->buffer, 0,
fifo->max_size)` zeroes only `max_size = 2` of the `capacity * entry_size =
4` storage bytes, leaving `[0, 0, 1, 1]`. -/
theorem fifo_uint16_clear_zero_fill_partial :
    (fifo_uint16_init false (some [1, 1, 1, 1]) 2 false =
      (0, some ⟨[1, 1, 1, 1], 0, 0, 2, 2, 2⟩)) ∧
    (fifo_uint16_clear (some ⟨[1, 1, 1, 1], 0, 0, 2, 2, 2⟩) =
      (0, some ⟨[0, 0, 1, 1], 0, 0, 2, 2, 2⟩)) ∧
    (([0, 0, 1, 1] : List Nat) ≠ List.replicate (2 * 2) 0) := by
  decide

/-- C9 (code bug in `fifo_uint16_init`): initializing a `uint16` buffer of
capacity 2 over the 4-byte store `[1, 1, 1, 1]` with the clear flag set
succeeds and sets `head = tail = 0`, `limit = 2` elements and `free_size =
max_size = 2`, but `memset(buffer, 0, size)` zeroes only `size = 2` of the
`capacity * entry_size = 4` storage bytes, leaving `[0, 0, 1, 1]`. -/
theorem fifo_uint16_init_zero_fill_partial :
    (fifo_uint16_init false (some [1, 1, 1, 1]) 2 true =
      (0, some ⟨[0, 0, 1, 1], 0, 0, 2, 2, 2⟩)) ∧
    (([0, 0, 1, 1] : List Nat) ≠ List.replicate (2 * 2) 0) := by
  decide

/-- C5: for every variant and every descriptor state, `push` on a full
buffer (`free_size = 0`) returns the BufferFull status (`-2` for the typed
variants, `-3` for the common variant) with the state unchanged, and `pop`
on an empty buffer (`free_size = max_size`) returns the BufferEmpty status
(`-3`) with the state unchanged and nothing written to the output. -/
theorem fifo_push_full_pop_empty_no_mutation
    (f8 : fifo_uint8_TD) (f16 : fifo_uint16_TD) (f32 : fifo_uint32_TD)
    (fc : fifo_common_TD) (v8 v16 v32 : Nat) (S : List Nat) :
    (f8.free_size = 0 → fifo_uint8_push (some f8) v8 = (-2, some f8)) ∧
    (f8.free_size = f8.max_size →
      fifo_uint8_pop (some f8) false = (-3, some f8, none)) ∧
    (f16.free_size = 0 → fifo_uint16_push (some f16) v16 = (-2, some f16)) ∧
    (f16.free_size = f16.max_size →
      fifo_uint16_pop (some f16) false = (-3, some f16, none)) ∧
    (f32.free_size = 0 → fifo_uint32_push (some f32) v32 = (-2, some f32)) ∧
    (f32.free_size = f32.max_size →
      fifo_uint32_pop (some f32) false = (-3, some f32, none)) ∧
    (fc.free_size = 0 → fifo_common_push (some fc) (some S) = (-3, some fc)) ∧
    (fc.free_size = fc.max_size →
      fifo_common_pop (some fc) false = (-3, some fc, [])) := by
  refine ⟨fun h => ?_, fun h => ?_, fun h => ?_, fun h => ?_,
          fun h => ?_, fun h => ?_, fun h => ?_, fun h => ?_⟩ <;>
    simp [fifo_uint8_push, fifo_uint8_push_core, fifo_uint8_pop, fifo_uint8_pop_core,
      fifo_uint16_push, fifo_uint16_push_core, fifo_uint16_pop, fifo_uint16_pop_core,
      fifo_uint32_push, fifo_uint32_push_core, fifo_uint32_pop, fifo_uint32_pop_core,
      fifo_common_push, fifo_common_push_core, fifo_common_pop, fifo_common_pop_core, h]

/-- Witness for C5 at the capacity-0 descriptor, which is simultaneously
full (`free_size = 0`) and empty (`free_size = max_size`). -/
theorem fifo_push_full_pop_empty_no_mutation_witness :
    (fifo_uint8_push (some ⟨[], 0, 0, 0, 0, 0⟩) 7 = (-2, some ⟨[], 0, 0, 0, 0, 0⟩)) ∧
    (fifo_uint8_pop (some ⟨[], 0, 0, 0, 0, 0⟩) false = (-3, some ⟨[], 0, 0, 0, 0, 0⟩, none)) ∧
    (fifo_uint16_push (some ⟨[], 0, 0, 0, 0, 0⟩) 7 = (-2, some ⟨[], 0, 0, 0, 0, 0⟩)) ∧
    (fifo_uint16_pop (some ⟨[], 0, 0, 0, 0, 0⟩) false = (-3, some ⟨[], 0, 0, 0, 0, 0⟩, none)) ∧
    (fifo_uint32_push (some ⟨[], 0, 0, 0, 0, 0⟩) 7 = (-2, some ⟨[], 0, 0, 0, 0, 0⟩)) ∧
    (fifo_uint32_pop (some ⟨[], 0, 0, 0, 0, 0⟩) false = (-3, some ⟨[], 0, 0, 0, 0, 0⟩, none)) ∧
    (fifo_common_push (some ⟨[], 0, 0, 0, 1, 0, 0⟩) (some [9]) =
      (-3, some ⟨[], 0, 0, 0, 1, 0, 0⟩)) ∧
    (fifo_common_pop (some ⟨[], 0, 0, 0, 1, 0, 0⟩) false =
      (-3, some ⟨[], 0, 0, 0, 1, 0, 0⟩, [])) := by
  obtain ⟨h1, h2, h3, h4, h5, h6, h7, h8⟩ :=
    fifo_push_full_pop_empty_no_mutation ⟨[], 0, 0, 0, 0, 0⟩ ⟨[], 0, 0, 0, 0, 0⟩
      ⟨[], 0, 0, 0, 0, 0⟩ ⟨[], 0, 0, 0, 1, 0, 0⟩ 7 7 7 [9]
  exact ⟨h1 rfl, h2 rfl, h3 rfl, h4 rfl, h5 rfl, h6 rfl, h7 rfl, h8 rfl⟩

/-!
Helper lemmas for C10: each bulk operation performs all its precondition
checks before any mutation, so any nonzero status leaves the descriptor
untouched.
-/

lemma uint8_push_mul_error_keeps_state (f : fifo_uint8_TD)
    (s : Option (List Nat)) (m : Nat)
    (h : (fifo_uint8_push_mul (some f) s m).1 ≠ 0) :
    (fifo_uint8_push_mul (some f) s m).2 = some f := by
  rcases s with _ | S
  · rfl
  · simp only [fifo_uint8_push_mul, fifo_uint8_push_mul_core] at h ⊢
    split_ifs at h ⊢ <;> simp_all

lemma uint8_pop_mul_error_keeps_state (f : fifo_uint8_TD) (b : Bool) (m : Nat)
    (h : (fifo_uint8_pop_mul (some f) b m).1 ≠ 0) :
    (fifo_uint8_pop_mul (some f) b m).2.1 = some f := by
  rcases b with _ | _
  · simp only [fifo_uint8_pop_mul, fifo_uint8_pop_mul_core] at h ⊢
    split_ifs at h ⊢ <;> simp_all
  · rfl

lemma uint16_push_mul_error_keeps_state (f : fifo_uint16_TD)
    (s : Option (List Nat)) (m : Nat)
    (h : (fifo_uint16_push_mul (some f) s m).1 ≠ 0) :
    (fifo_uint16_push_mul (some f) s m).2 = some f := by
  rcases s with _ | S
  · rfl
  · simp only [fifo_uint16_push_mul, fifo_uint16_push_mul_core] at h ⊢
    split_ifs at h ⊢ <;> simp_all

lemma uint16_pop_mul_error_keeps_state (f : fifo_uint16_TD) (b : Bool) (m : Nat)
    (h : (fifo_uint16_pop_mul (some f) b m).1 ≠ 0) :
    (fifo_uint16_pop_mul (some f) b m).2.1 = some f := by
  rcases b with _ | _
  · simp only [fifo_uint16_pop_mul, fifo_uint16_pop_mul_core] at h ⊢
    split_ifs at h ⊢ <;> simp_all
  · rfl

lemma uint32_push_mul_error_keeps_state (f : fifo_uint32_TD)
    (s : Option (List Nat)) (m : Nat)
    (h : (fifo_uint32_push_mul (some f) s m).1 ≠ 0) :
    (fifo_uint32_push_mul (some f) s m).2 = some f := by
  rcases s with _ | S
  · rfl
  · simp only [fifo_uint32_push_mul, fifo_uint32_push_mul_core] at h ⊢
    split_ifs at h ⊢ <;> simp_all

lemma uint32_pop_mul_error_keeps_state (f : fifo_uint32_TD) (b : Bool) (m : Nat)
    (h : (fifo_uint32_pop_mul (some f) b m).1 ≠ 0) :
    (fifo_uint32_pop_mul (some f) b m).2.1 = some f := by
  rcases b with _ | _
  · simp only [fifo_uint32_pop_mul, fifo_uint32_pop_mul_core] at h ⊢
    split_ifs at h ⊢ <;> simp_all
  · rfl

lemma common_push_mul_error_keeps_state (f : fifo_common_TD)
    (s : Option (List Nat)) (m : Nat)
    (h : (fifo_common_push_mul (some f) s m).1 ≠ 0) :
    (fifo_common_push_mul (some f) s m).2 = some f := by
  rcases s with _ | S
  · rfl
  · simp only [fifo_common_push_mul, fifo_common_push_mul_core] at h ⊢
    split_ifs at h ⊢ <;> simp_all

lemma common_pop_mul_error_keeps_state (f : fifo_common_TD) (b : Bool) (m : Nat)
    (h : (fifo_common_pop_mul (some f) b m).1 ≠ 0) :
    (fifo_common_pop_mul (some f) b m).2.1 = some f := by
  rcases b with _ | _
  · simp only [fifo_common_pop_mul, fifo_common_pop_mul_core] at h ⊢
    split_ifs at h ⊢ <;> simp_all
  · rfl

/-- C10: for every variant, whenever `push_mul` or `pop_mul` is called on a
non-null descriptor and returns a nonzero (error) status, the descriptor —
`head`, `tail`, `free_size` and the storage — is exactly as before the
call: every precondition check happens before any mutation. -/
theorem fifo_bulk_error_no_mutation
    (f8 : fifo_uint8_TD) (f16 : fifo_uint16_TD) (f32 : fifo_uint32_TD)
    (fc : fifo_common_TD) (s8 s16 s32 sc : Option (List Nat))
    (b8 b16 b32 bc : Bool) (m : Nat) :
    ((fifo_uint8_push_mul (some f8) s8 m).1 ≠ 0 →
      (fifo_uint8_push_mul (some f8) s8 m).2 = some f8) ∧
    ((fifo_uint8_pop_mul (some f8) b8 m).1 ≠ 0 →
      (fifo_uint8_pop_mul (some f8) b8 m).2.1 = some f8) ∧
    ((fifo_uint16_push_mul (some f16) s16 m).1 ≠ 0 →
      (fifo_uint16_push_mul (some f16) s16 m).2 = some f16) ∧
    ((fifo_uint16_pop_mul (some f16) b16 m).1 ≠ 0 →
      (fifo_uint16_pop_mul (some f16) b16 m).2.1 = some f16) ∧
    ((fifo_uint32_push_mul (some f32) s32 m).1 ≠ 0 →
      (fifo_uint32_push_mul (some f32) s32 m).2 = some f32) ∧
    ((fifo_uint32_pop_mul (some f32) b32 m).1 ≠ 0 →
      (fifo_uint32_pop_mul (some f32) b32 m).2.1 = some f32) ∧
    ((fifo_common_push_mul (some fc) sc m).1 ≠ 0 →
      (fifo_common_push_mul (some fc) sc m).2 = some fc) ∧
    ((fifo_common_pop_mul (some fc) bc m).1 ≠ 0 →
      (fifo_common_pop_mul (some fc) bc m).2.1 = some fc) :=
  ⟨uint8_push_mul_error_keeps_state f8 s8 m,
   uint8_pop_mul_error_keeps_state f8 b8 m,
   uint16_push_mul_error_keeps_state f16 s16 m,
   uint16_pop_mul_error_keeps_state f16 b16 m,
   uint32_push_mul_error_keeps_state f32 s32 m,
   uint32_pop_mul_error_keeps_state f32 b32 m,
   common_push_mul_error_keeps_state fc sc m,
   common_pop_mul_error_keeps_state fc bc m⟩

/-- Witness for C10 at `m = 0` (ZeroLength error) on one-slot buffers. -/
theorem fifo_bulk_error_no_mutation_witness :
    ((fifo_uint8_push_mul (some ⟨[0], 0, 0, 1, 1, 1⟩) (some [9]) 0).2 =
      some ⟨[0], 0, 0, 1, 1, 1⟩) ∧
    ((fifo_uint8_pop_mul (some ⟨[0], 0, 0, 1, 1, 1⟩) false 0).2.1 =
      some ⟨[0], 0, 0, 1, 1, 1⟩) ∧
    ((fifo_uint16_push_mul (some ⟨[0, 0], 0, 0, 1, 1, 1⟩) (some [9, 0]) 0).2 =
      some ⟨[0, 0], 0, 0, 1, 1, 1⟩) ∧
    ((fifo_uint16_pop_mul (some ⟨[0, 0], 0, 0, 1, 1, 1⟩) false 0).2.1 =
      some ⟨[0, 0], 0, 0, 1, 1, 1⟩) ∧
    ((fifo_uint32_push_mul (some ⟨[0, 0, 0, 0], 0, 0, 1, 1, 1⟩) (some [9, 0, 0, 0]) 0).2 =
      some ⟨[0, 0, 0, 0], 0, 0, 1, 1, 1⟩) ∧
    ((fifo_uint32_pop_mul (some ⟨[0, 0, 0, 0], 0, 0, 1, 1, 1⟩) false 0).2.1 =
      some ⟨[0, 0, 0, 0], 0, 0, 1, 1, 1⟩) ∧
    ((fifo_common_push_mul (some ⟨[0], 0, 0, 1, 1, 1, 1⟩) (some [9]) 0).2 =
      some ⟨[0], 0, 0, 1, 1, 1, 1⟩) ∧
    ((fifo_common_pop_mul (some ⟨[0], 0, 0, 1, 1, 1, 1⟩) false 0).2.1 =
      some ⟨[0], 0, 0, 1, 1, 1, 1⟩) := by
  obtain ⟨h1, h2, h3, h4, h5, h6, h7, h8⟩ :=
    fifo_bulk_error_no_mutation ⟨[0], 0, 0, 1, 1, 1⟩ ⟨[0, 0], 0, 0, 1, 1, 1⟩
      ⟨[0, 0, 0, 0], 0, 0, 1, 1, 1⟩ ⟨[0], 0, 0, 1, 1, 1, 1⟩
      (some [9]) (some [9, 0]) (some [9, 0, 0, 0]) (some [9])
      false false false false 0
  exact ⟨h1 (by decide), h2 (by decide), h3 (by decide), h4 (by decide),
         h5 (by decide), h6 (by decide), h7 (by decide), h8 (by decide)⟩

/-!
Helper lemmas for C7: the success case of each `push_mul` variant returns
status 0 with `free_size` decremented by exactly the requested count
(the decrement `fifo->free_size -= m` happens once, before the copies, and
is the only write to `free_size`).
-/

lemma uint8_push_mul_success (f : fifo_uint8_TD) (S : List Nat) (m : Nat)
    (hm : m ≠ 0) (hle : m ≤ f.free_size) :
    ∃ g, fifo_uint8_push_mul (some f) (some S) m = (0, some g) ∧
      g.free_size = f.free_size - m := by
  have hngt : ¬ m > f.free_size := by omega
  simp only [fifo_uint8_push_mul, fifo_uint8_push_mul_core, if_neg hm, if_neg hngt]
  split_ifs <;> exact ⟨_, rfl, rfl⟩

lemma uint16_push_mul_success (f : fifo_uint16_TD) (S : List Nat) (m : Nat)
    (hm : m ≠ 0) (hle : m ≤ f.free_size) :
    ∃ g, fifo_uint16_push_mul (some f) (some S) m = (0, some g) ∧
      g.free_size = f.free_size - m := by
  have hngt : ¬ m > f.free_size := by omega
  simp only [fifo_uint16_push_mul, fifo_uint16_push_mul_core, if_neg hm, if_neg hngt]
  split_ifs <;> exact ⟨_, rfl, rfl⟩

lemma uint32_push_mul_success (f : fifo_uint32_TD) (S : List Nat) (m : Nat)
    (hm : m ≠ 0) (hle : m ≤ f.free_size) :
    ∃ g, fifo_uint32_push_mul (some f) (some S) m = (0, some g) ∧
      g.free_size = f.free_size - m := by
  have hngt : ¬ m > f.free_size := by omega
  simp only [fifo_uint32_push_mul, fifo_uint32_push_mul_core, if_neg hm, if_neg hngt]
  split_ifs <;> exact ⟨_, rfl, rfl⟩

lemma common_push_mul_success (f : fifo_common_TD) (S : List Nat) (m : Nat)
    (hm : m ≠ 0) (hle : m ≤ f.free_size) :
    ∃ g, fifo_common_push_mul (some f) (some S) m = (0, some g) ∧
      g.free_size = f.free_size - m := by
  have hngt : ¬ m > f.free_size := by omega
  simp only [fifo_common_push_mul, fifo_common_push_mul_core, if_neg hm, if_neg hngt]
  split_ifs <;> exact ⟨_, rfl, rfl⟩

/-- C7: for every variant, `push_mul` returns `-1` on a null descriptor and
`-2` on a null source (the InvalidArgument statuses), `-3` (ZeroLength)
exactly when `count = 0` given non-null arguments, `-4`
(InsufficientSpace) exactly when `count > free_size`, and otherwise
succeeds with status 0 and `free_size` decremented by exactly `count`. -/
theorem fifo_push_mul_status_spec
    (f8 : fifo_uint8_TD) (f16 : fifo_uint16_TD) (f32 : fifo_uint32_TD)
    (fc : fifo_common_TD) (S8 S16 S32 SC : List Nat) (m : Nat) :
    (fifo_uint8_push_mul none (some S8) m = (-1, none)) ∧
    (fifo_uint8_push_mul (some f8) none m = (-2, some f8)) ∧
    (m = 0 → fifo_uint8_push_mul (some f8) (some S8) m = (-3, some f8)) ∧
    (m ≠ 0 → m > f8.free_size →
      fifo_uint8_push_mul (some f8) (some S8) m = (-4, some f8)) ∧
    (m ≠ 0 → m ≤ f8.free_size →
      ∃ g, fifo_uint8_push_mul (some f8) (some S8) m = (0, some g) ∧
        g.free_size = f8.free_size - m) ∧
    (fifo_uint16_push_mul none (some S16) m = (-1, none)) ∧
    (fifo_uint16_push_mul (some f16) none m = (-2, some f16)) ∧
    (m = 0 → fifo_uint16_push_mul (some f16) (some S16) m = (-3, some f16)) ∧
    (m ≠ 0 → m > f16.free_size →
      fifo_uint16_push_mul (some f16) (some S16) m = (-4, some f16)) ∧
    (m ≠ 0 → m ≤ f16.free_size →
      ∃ g, fifo_uint16_push_mul (some f16) (some S16) m = (0, some g) ∧
        g.free_size = f16.free_size - m) ∧
    (fifo_uint32_push_mul none (some S32) m = (-1, none)) ∧
    (fifo_uint32_push_mul (some f32) none m = (-2, some f32)) ∧
    (m = 0 → fifo_uint32_push_mul (some f32) (some S32) m = (-3, some f32)) ∧
    (m ≠ 0 → m > f32.free_size →
      fifo_uint32_push_mul (some f32) (some S32) m = (-4, some f32)) ∧
    (m ≠ 0 → m ≤ f32.free_size →
      ∃ g, fifo_uint32_push_mul (some f32) (some S32) m = (0, some g) ∧
        g.free_size = f32.free_size - m) ∧
    (fifo_common_push_mul none (some SC) m = (-1, none)) ∧
    (fifo_common_push_mul (some fc) none m = (-2, some fc)) ∧
    (m = 0 → fifo_common_push_mul (some fc) (some SC) m = (-3, some fc)) ∧
    (m ≠ 0 → m > fc.free_size →
      fifo_common_push_mul (some fc) (some SC) m = (-4, some fc)) ∧
    (m ≠ 0 → m ≤ fc.free_size →
      ∃ g, fifo_common_push_mul (some fc) (some SC) m = (0, some g) ∧
        g.free_size = fc.free_size - m) := by
  refine ⟨rfl, rfl, fun h0 => ?_, fun hm hgt => ?_,
          fun hm hle => uint8_push_mul_success f8 S8 m hm hle,
          rfl, rfl, fun h0 => ?_, fun hm hgt => ?_,
          fun hm hle => uint16_push_mul_success f16 S16 m hm hle,
          rfl, rfl, fun h0 => ?_, fun hm hgt => ?_,
          fun hm hle => uint32_push_mul_success f32 S32 m hm hle,
          rfl, rfl, fun h0 => ?_, fun hm hgt => ?_,
          fun hm hle => common_push_mul_success fc SC m hm hle⟩ <;>
    simp [fifo_uint8_push_mul, fifo_uint8_push_mul_core,
      fifo_uint16_push_mul, fifo_uint16_push_mul_core,
      fifo_uint32_push_mul, fifo_uint32_push_mul_core,
      fifo_common_push_mul, fifo_common_push_mul_core, *]

/-- Witness for C7: success case with `count = 1` on one-slot buffers. -/
theorem fifo_push_mul_status_spec_witness :
    (∃ g, fifo_uint8_push_mul (some ⟨[0], 0, 0, 1, 1, 1⟩) (some [9]) 1 = (0, some g) ∧
      g.free_size = 0) ∧
    (∃ g, fifo_uint16_push_mul (some ⟨[0, 0], 0, 0, 1, 1, 1⟩) (some [9, 0]) 1 = (0, some g) ∧
      g.free_size = 0) ∧
    (∃ g, fifo_uint32_push_mul (some ⟨[0, 0, 0, 0], 0, 0, 1, 1, 1⟩)
        (some [9, 0, 0, 0]) 1 = (0, some g) ∧ g.free_size = 0) ∧
    (∃ g, fifo_common_push_mul (some ⟨[0], 0, 0, 1, 1, 1, 1⟩) (some [9]) 1 = (0, some g) ∧
      g.free_size = 0) := by
  have h := fifo_push_mul_status_spec ⟨[0], 0, 0, 1, 1, 1⟩ ⟨[0, 0], 0, 0, 1, 1, 1⟩
    ⟨[0, 0, 0, 0], 0, 0, 1, 1, 1⟩ ⟨[0], 0, 0, 1, 1, 1, 1⟩ [9] [9, 0] [9, 0, 0, 0] [9] 1
  exact ⟨h.2.2.2.2.1 (by decide) (by decide),
         h.2.2.2.2.2.2.2.2.2.1 (by decide) (by decide),
         h.2.2.2.2.2.2.2.2.2.2.2.2.2.2.1 (by decide) (by decide),
         h.2.2.2.2.2.2.2.2.2.2.2.2.2.2.2.2.2.2.2 (by decide) (by decide)⟩

/-!
List lemmas for C4.
-/

lemma memcpyL_one_length (B : List Nat) (t e : Nat) (ht : t < B.length) :
    (memcpyL B t [e] 1).length = B.length := by
  simp [memcpyL]
  omega

/-- Writing one byte at `t` and then a run at `t + 1` amounts to writing the
combined run at `t`. -/
lemma write_one_then_seq (B : List Nat) (t e : Nat) (src : List Nat) (n : Nat)
    (ht : t < B.length) :
    (memcpyL B t [e] 1).take (t + 1) ++ src ++ (memcpyL B t [e] 1).drop (t + 1 + n) =
      B.take t ++ e :: src ++ B.drop (t + 1 + n) := by
  induction B generalizing t with
  | nil => simp at ht
  | cons b B ih =>
      cases t with
      | zero =>
          simp [memcpyL, List.drop_drop]
          rw [show 1 + n = n + 1 from by omega]
          simp
      | succ t =>
          have ht2 : t < B.length := by simpa using ht
          have hstep : memcpyL (b :: B) (t + 1) [e] 1 = b :: memcpyL B t [e] 1 := by
            simp [memcpyL]
          rw [hstep]
          have h2 : t + 1 + 1 + n = (t + 1 + n) + 1 := by omega
          rw [h2]
          simp only [List.take_succ_cons, List.drop_succ_cons, List.cons_append]
          have := ih t ht2
          simp only [List.cons_append] at this ⊢
          rw [this]

/-- Reading `k + 1` entries starting at index `i` peels off the entry at
`i`. -/
lemma drop_take_succ (B : List Nat) (i k : Nat) (h : i < B.length) :
    (B.drop i).take (k + 1) = B.getD i 0 :: (B.drop (i + 1)).take k := by
  induction B generalizing i with
  | nil => simp at h
  | cons b B ih =>
      cases i with
      | zero => simp
      | succ i =>
          have h2 : i < B.length := by simpa using h
          simpa using ih i h2

/-- Pushing `es` one element at a time into a `uint8` descriptor whose tail
run `[t, t + es.length)` fits before the limit `N` succeeds throughout,
writes `es` contiguously at `t`, advances `tail` by `es.length` (wrapping
exactly at `N`), and decrements `free_size` by `es.length`. -/
lemma fifo_uint8_pushList_spec (N : Nat) :
    ∀ (es B : List Nat) (hd t free : Nat), B.length = N → t < N →
      t + es.length ≤ N → es.length ≤ free → (∀ e ∈ es, e < 256) →
      fifo_uint8_pushList ⟨B, hd, t, N, N, free⟩ es =
        (List.replicate es.length 0,
         ⟨B.take t ++ es ++ B.drop (t + es.length), hd, (t + es.length) % N,
          N, N, free - es.length⟩) := by
  intro es
  induction es with
  | nil =>
      intro B hd t free hB ht _ _ _
      simp [fifo_uint8_pushList, Nat.mod_eq_of_lt ht]
  | cons e rest ih =>
      intro B hd t free hB ht hlen hfree hval
      have he : e % 256 = e := Nat.mod_eq_of_lt (hval e (by simp))
      have hfree0 : ¬ free = 0 := by
        simp only [List.length_cons] at hfree
        omega
      simp only [List.length_cons] at hlen hfree
      simp only [fifo_uint8_pushList, fifo_uint8_push_core, if_neg hfree0, he,
        List.length_cons]
      have e1 : List.replicate (rest.length + 1) (0 : Int) =
          0 :: List.replicate rest.length 0 := rfl
      have e2 : t + (rest.length + 1) = t + 1 + rest.length := by omega
      have e3 : free - (rest.length + 1) = free - 1 - rest.length := by omega
      rw [e1, e2, e3]
      by_cases hw : t + 1 < N
      · have hwrap : ¬ t + 1 ≥ N := by omega
        simp only [if_neg hwrap]
        rw [ih (memcpyL B t [e] 1) hd (t + 1) (free - 1)
          (by rw [memcpyL_one_length B t e (by omega)]; exact hB) hw
          (by omega) (by omega)
          (fun x hx => hval x (by simp [hx]))]
        rw [write_one_then_seq B t e rest rest.length (by omega)]
      · have htN : t + 1 = N := by omega
        have hr : rest = [] := List.length_eq_zero.mp (by omega)
        subst hr
        simp only [if_pos (by omega : t + 1 ≥ N)]
        simp only [fifo_uint8_pushList]
        simp [memcpyL, htN]

/-- Popping `k` elements one at a time from a `uint8` descriptor whose head
run `[hd, hd + k)` lies before the limit `N` succeeds throughout, returns
the `k` stored bytes starting at `hd` in order, advances `head` by `k`
(wrapping exactly at `N`), and increments `free_size` by `k`. -/
lemma fifo_uint8_popN_spec (N : Nat) (hN16 : N ≤ 65535) :
    ∀ (k : Nat) (B : List Nat) (hd tl free : Nat), B.length = N → hd < N →
      hd + k ≤ N → free + k ≤ N →
      fifo_uint8_popN ⟨B, hd, tl, N, N, free⟩ k =
        (List.replicate k 0, (B.drop hd).take k,
         ⟨B, (hd + k) % N, tl, N, N, free + k⟩) := by
  intro k
  induction k with
  | zero =>
      intro B hd tl free hB hhd _ _
      simp [fifo_uint8_popN, Nat.mod_eq_of_lt hhd]
  | succ k ih =>
      intro B hd tl free hB hhd hk hfree
      have hne : ¬ free = N := by omega
      have hmod : (free + 1) % 65536 = free + 1 := Nat.mod_eq_of_lt (by omega)
      simp only [fifo_uint8_popN, fifo_uint8_pop_core, if_neg hne, hmod]
      rw [drop_take_succ B hd k (by omega)]
      have e2 : hd + (k + 1) = hd + 1 + k := by omega
      have e3 : free + (k + 1) = free + 1 + k := by omega
      rw [e2, e3]
      by_cases hw : hd + 1 < N
      · have hwrap : ¬ hd + 1 ≥ N := by omega
        simp only [if_neg hwrap]
        rw [ih B (hd + 1) tl (free + 1) hB hw (by omega) (by omega)]
        rfl
      · have htN : hd + 1 = N := by omega
        have hk0 : k = 0 := by omega
        subst hk0
        simp only [if_pos (by omega : hd + 1 ≥ N)]
        simp only [fifo_uint8_popN]
        simp [htN]

/-- C4: on a freshly initialized `uint8` buffer of capacity `N ≥ n`,
pushing the `n` byte values `es` one at a time all succeeds, and then
popping any `k ≤ n` elements one at a time (no interleaving pushes) all
succeeds and delivers exactly the first `k` pushed values in order. -/
theorem fifo_uint8_fifo_order (N k : Nat) (es : List Nat) (hN0 : 0 < N)
    (hN16 : N ≤ 65535) (hlen : es.length ≤ N) (hk : k ≤ es.length)
    (hval : ∀ e ∈ es, e < 256) :
    ∃ f0, fifo_uint8_init false (some (List.replicate N 0)) N true = (0, some f0) ∧
      (fifo_uint8_pushList f0 es).1 = List.replicate es.length 0 ∧
      (fifo_uint8_popN (fifo_uint8_pushList f0 es).2 k).1 = List.replicate k 0 ∧
      (fifo_uint8_popN (fifo_uint8_pushList f0 es).2 k).2.1 = es.take k := by
  have hNz : N ≠ 0 := by omega
  have hpush := fifo_uint8_pushList_spec N es (List.replicate N 0) 0 0 N
    (by simp) hN0 (by simpa using hlen) hlen hval
  have hbuf : (List.replicate N 0 : List Nat).take 0 ++ es ++
      (List.replicate N 0 : List Nat).drop (0 + es.length) =
      es ++ List.replicate (N - es.length) 0 := by
    simp [List.drop_replicate]
  rw [hbuf] at hpush
  have hpop := fifo_uint8_popN_spec N hN16 k
    (es ++ List.replicate (N - es.length) 0) 0 ((0 + es.length) % N)
    (N - es.length) (by simp; omega) hN0 (by omega) (by omega)
  refine ⟨⟨List.replicate N 0, 0, 0, N, N, N⟩, ?_, ?_, ?_, ?_⟩
  · simp [fifo_uint8_init, hNz, memset0]
  · rw [hpush]
  · rw [hpush]
    simp only
    rw [hpop]
  · rw [hpush]
    simp only
    rw [hpop]
    simp only
    simp [List.take_append_eq_append_take, Nat.sub_eq_zero_of_le hk]

/-- Witness for C4 at capacity 3, pushed values `[1, 2]`, one pop. -/
theorem fifo_uint8_fifo_order_witness :
    ∃ f0, fifo_uint8_init false (some (List.replicate 3 0)) 3 true = (0, some f0) ∧
      (fifo_uint8_pushList f0 [1, 2]).1 = List.replicate 2 0 ∧
      (fifo_uint8_popN (fifo_uint8_pushList f0 [1, 2]).2 1).1 = List.replicate 1 0 ∧
      (fifo_uint8_popN (fifo_uint8_pushList f0 [1, 2]).2 1).2.1 = [1, 2].take 1 := by
  have h := fifo_uint8_fifo_order 3 1 [1, 2] (by decide) (by decide) (by decide)
    (by decide) (by decide)
  simpa using h
